import Mathlib

/-!
Shallow embedding of the redflag log-discovery and enrichment pipeline.

The authoritative sources are the two variants of the `GET /api/pools`
handler (the complete variant, called "part_000" below, and the simpler
`src/app/api/pools/route.ts` variant, called "route" below).  Block numbers
(TypeScript `bigint`) are modelled as `Int`; addresses, transaction hashes
and symbols as `String`; every fallible external call is a function into
`Option`, where `none` models a thrown/rejected promise.  The embedding
models the non-exceptional semantics of the handlers: every modelled
failure mode (provider error, chunk-query error, lookup failure, reputation
failure) is a value, so the final catch-all `500` path of the source is
unreachable in the model and every modelled response carries status 200.
-/

namespace Redflag

/-- A decoded `PoolCreated` log as both handlers consume it: the four event
arguments, the block number and the (nullable) transaction hash. -/
structure RawLog where
  token0 : String
  token1 : String
  stable : Bool
  pool : String
  blockNumber : Int
  transactionHash : Option String
deriving DecidableEq, Repr

/-- A viem public client, reduced to the five read capabilities the pipeline
uses.  `none` models a thrown error / rejected promise on that call. -/
structure Client where
  blockNumber : Option Int
  logsInRange : Int → Int → Option (List RawLog)
  receiptFrom : String → Option String
  symbolOf : String → Option String
  blockTimestamp : Int → Option Int

/-- Sentinel fallback for a failed or impossible sender resolution. -/
def zeroAddress : String := "0x0000000000000000000000000000000000000000"

/-- JavaScript `toLowerCase()` on the ASCII addresses this pipeline
handles: lowercase every character. -/
def toLowerCase (s : String) : String := ⟨s.data.map Char.toLower⟩

/-- `getTokenSymbol` (both variants): `symbol()` read with a
truncated-address fallback on any error. -/
def getTokenSymbol (c : Client) (address : String) : String :=
  match c.symbolOf address with
  | some s => s
  | none => address.take 6 ++ "..."

/-- `getTransactionSender` (part_000 and route variants): transaction
receipt `from`, zero address on any error. -/
def getTransactionSender (c : Client) (txHash : String) : String :=
  match c.receiptFrom txHash with
  | some a => a
  | none => zeroAddress

/-- `shortenAddress` (part_000): `slice(0, 6) + "..." + slice(-3)`. -/
def shortenAddress (address : String) : String :=
  address.take 6 ++ "..." ++ address.takeRight 3

/-- `formatTimeAgo` (part_000), with the current time in seconds passed
explicitly in place of `Date.now() / 1000`. -/
def formatTimeAgo (nowSec : Int) (timestamp : Int) : String :=
  let diff := nowSec - timestamp
  if diff < 60 then toString diff ++ "s"
  else if diff < 3600 then toString (diff / 60) ++ "m"
  else if diff < 86400 then toString (diff / 3600) ++ "h"
  else toString (diff / 86400) ++ "d"

/-- Outcome of one `fetch` of the Ethos reputation service for one address.
`failure msg` models a rejected promise: the 5-second abort timer firing,
or a network error, with `msg` the thrown error's message.  `response`
models an HTTP response with its status and the parsed `score` field of the
JSON body (`none` when the body carries `score: null` or omits it). -/
inductive FetchOutcome where
  | failure (msg : String)
  | response (status : Nat) (score : Option Int)
deriving DecidableEq, Repr

/-- The abort timer bound on the Ethos fetch in the part_000 variant
(`setTimeout(() => controller.abort(), 5000)`). -/
def ETHOS_TIMEOUT_MS : Nat := 5000

/-- `response.ok`: HTTP status in the 2xx range. -/
def isOkStatus (status : Nat) : Bool := 200 ≤ status && status < 300

/-- Return shape of the part_000 `getEthosScore`. -/
structure EthosResult where
  score : Option Int
  error : Option String
deriving DecidableEq, Repr

/-- `getEthosScore` (part_000 variant): distinguishes 2xx-with-score,
2xx-with-null-score, and failure (timeout / network / non-2xx). -/
def getEthosScore (outcome : FetchOutcome) : EthosResult :=
  match outcome with
  | .failure msg => { score := none, error := some ("ethos: " ++ msg) }
  | .response status score =>
    if isOkStatus status then { score := score, error := none }
    else { score := none, error := some ("ethos: " ++ toString status) }

/-- `getEthosScore` (route variant): any failure or non-2xx collapses to
`null`, indistinguishable from a 2xx `score: null`; no abort timer exists
in this variant. -/
def getEthosScoreSimple (outcome : FetchOutcome) : Option Int :=
  match outcome with
  | .failure _ => none
  | .response status score => if isOkStatus status then score else none

/-! ## Chunked backward scan (`fetchLogsWithFallback`, both variants)

Both variants scan backward from the head block in chunks of 2000 blocks
over a 100000-block budget, stopping early once the accumulated log count
reaches a threshold (25 in part_000, 20 in the route variant).  A chunk
whose `getLogs` call throws is skipped (`catch { continue; }`). -/

def rangeSize : Int := 2000

def totalRange : Int := 100000

/-- Number of chunk iterations: offsets `0, 2000, …, 98000`. -/
def chunkCount : Nat := 50

/-- `toBlock` of the chunk at iteration `j`: `currentBlock - offset`. -/
def chunkToBlock (current : Int) (j : Nat) : Int := current - rangeSize * j

/-- Computed `fromBlock` of the chunk at iteration `j`, before clamping:
`toBlock - rangeSize + 1`. -/
def chunkFromBlock (current : Int) (j : Nat) : Int :=
  chunkToBlock current j - rangeSize + 1

/-- The `fromBlock` actually sent: clamped to 1 when not positive
(`fromBlock > 0n ? fromBlock : 1n`). -/
def chunkSentFrom (current : Int) (j : Nat) : Int :=
  if chunkFromBlock current j > 0 then chunkFromBlock current j else 1

/-- The `[fromBlock, toBlock]` pair sent for iteration `j`. -/
def chunkQuery (current : Int) (j : Nat) : Int × Int :=
  (chunkSentFrom current j, chunkToBlock current j)

/-- A block is covered by a sent chunk query when it lies in its inclusive
range. -/
def coversBlock (q : Int × Int) (b : Int) : Prop := q.1 ≤ b ∧ b ≤ q.2

instance (q : Int × Int) (b : Int) : Decidable (coversBlock q b) := by
  unfold coversBlock; infer_instance

/-- The chunk loop body: walk the remaining iteration indices, stop when
the accumulated logs reach `threshold`, issue one range query per index,
append its logs on success and skip it on failure.  Returns the
accumulated logs and the trace of `[fromBlock, toBlock]` queries issued. -/
def scanGo (c : Client) (current : Int) (threshold : Nat) :
    List Nat → List RawLog → List RawLog × List (Int × Int)
  | [], acc => (acc, [])
  | j :: js, acc =>
    if threshold ≤ acc.length then (acc, [])
    else
      let q := chunkQuery current j
      match c.logsInRange q.1 q.2 with
      | none =>
        let r := scanGo c current threshold js acc
        (r.1, q :: r.2)
      | some logs =>
        let r := scanGo c current threshold js (acc ++ logs)
        (r.1, q :: r.2)

/-- One provider's full chunk loop (`for offset … offset += rangeSize`). -/
def scanClient (c : Client) (current : Int) (threshold : Nat) :
    List RawLog × List (Int × Int) :=
  scanGo c current threshold (List.range chunkCount) []

/-- Provider fallback recursion: try each client in order; a client whose
`getBlockNumber` throws, or whose whole scan accumulates zero logs, is
abandoned for the next.  On success returns the logs, the client handle
and its position in the endpoint list. -/
def fetchLogsWithFallbackGo (threshold : Nat) :
    List Client → Nat → Option (List RawLog × Client × Nat)
  | [], _ => none
  | c :: rest, idx =>
    match c.blockNumber with
    | none => fetchLogsWithFallbackGo threshold rest (idx + 1)
    | some currentBlock =>
      let scanned := scanClient c currentBlock threshold
      if 0 < scanned.1.length then some (scanned.1, c, idx)
      else fetchLogsWithFallbackGo threshold rest (idx + 1)

/-- `fetchLogsWithFallback`, parametrized by the early-stop threshold
(25 in part_000, 20 in the route variant). -/
def fetchLogsWithFallback (clients : List Client) (threshold : Nat) :
    Option (List RawLog × Client × Nat) :=
  fetchLogsWithFallbackGo threshold clients 0

/-! ## Enrichment and assembly (part_000 variant) -/

/-- The `PoolData` record emitted by the part_000 handler. -/
structure PoolData where
  pool : String
  token0 : String
  token1 : String
  token0Symbol : String
  token1Symbol : String
  pair : String
  stable : Bool
  creator : String
  creatorShort : String
  creatorScore : Option Int
  scoreSource : String
  scoreError : Option String
  blockNumber : Int
  timestamp : Int
  timeAgo : String
  txHash : String
  basescanLink : String
  isFirstPoolByCreator : Bool
deriving DecidableEq, Repr

/-- The order in which the comparator
`(a, b) => Number(b.blockNumber) - Number(a.blockNumber)` places `a` at or
before `b`: descending block number. -/
def logGE (a b : RawLog) : Prop := b.blockNumber ≤ a.blockNumber

instance : DecidableRel logGE :=
  fun a b => (inferInstance : Decidable (b.blockNumber ≤ a.blockNumber))

instance : IsTotal RawLog logGE := ⟨fun a b => le_total b.blockNumber a.blockNumber⟩

instance : IsTrans RawLog logGE :=
  ⟨fun _ _ _ hab hbc => le_trans hbc hab⟩

/-- Both handlers sort in place with the comparator
`(a, b) => Number(b.blockNumber) - Number(a.blockNumber)`; JavaScript's
sort is stable (ES2019), so it is modelled by a stable sort placing `a`
before `b` whenever `b.blockNumber ≤ a.blockNumber`. -/
def sortLogsDesc (logs : List RawLog) : List RawLog :=
  logs.insertionSort logGE

/-- The creator used for a displayed log: `creators[i] || zero`, where
`creators[i]` is `null` exactly when the log has no transaction hash. -/
def resolveCreator (c : Client) (log : RawLog) : String :=
  match log.transactionHash with
  | some h => getTransactionSender c h
  | none => zeroAddress

/-- Lookup in the association list modelling the `Map` of per-creator
counts: `map.get(k) || 0`. -/
def mapGetD : List (String × Nat) → String → Nat
  | [], _ => 0
  | e :: rest, k => if e.1 == k then e.2 else mapGetD rest k

/-- `map.set(k, v)`: replace the binding of `k` or append it. -/
def mapSet : List (String × Nat) → String → Nat → List (String × Nat)
  | [], k, v => [(k, v)]
  | e :: rest, k, v =>
    if e.1 == k then (k, v) :: rest else e :: mapSet rest k v

/-- The part_000 count loop: over the full log set, skip logs without a
transaction hash, resolve their sender and bump the count keyed by the
lowercased address. -/
def buildCreatorPoolCount (c : Client) :
    List RawLog → List (String × Nat) → List (String × Nat)
  | [], m => m
  | log :: rest, m =>
    match log.transactionHash with
    | none => buildCreatorPoolCount c rest m
    | some h =>
      let key := toLowerCase (getTransactionSender c h)
      buildCreatorPoolCount c rest (mapSet m key (mapGetD m key + 1))

/-- Enrichment of one displayed log in the part_000 handler.  The symbol,
sender and reputation lookups each carry their own try/catch and cannot
throw; `getBlock` does not, so its failure hits the per-event
`catch { continue; }` and the event is dropped (`none`). -/
def enrichLog (c : Client) (ethos : String → FetchOutcome)
    (counts : List (String × Nat)) (nowSec : Int) (log : RawLog) :
    Option PoolData :=
  let token0Symbol := getTokenSymbol c log.token0
  let token1Symbol := getTokenSymbol c log.token1
  let creator := resolveCreator c log
  match c.blockTimestamp log.blockNumber with
  | none => none
  | some ts =>
    let e := getEthosScore (ethos creator)
    some {
      pool := log.pool
      token0 := log.token0
      token1 := log.token1
      token0Symbol := token0Symbol
      token1Symbol := token1Symbol
      pair := token0Symbol ++ "/" ++ token1Symbol
      stable := log.stable
      creator := creator
      creatorShort := shortenAddress creator
      creatorScore := e.score
      scoreSource := "ethos"
      scoreError := e.error
      blockNumber := log.blockNumber
      timestamp := ts
      timeAgo := formatTimeAgo nowSec ts
      txHash := log.transactionHash.getD ""
      basescanLink := "https://basescan.org/tx/" ++
        (match log.transactionHash with | some h => h | none => "null")
      isFirstPoolByCreator := mapGetD counts (toLowerCase creator) == 1 }

/-- The part_000 assembly on a successful fetch: sort descending, keep the
15 most recent, count creators over the full sorted log set, enrich each
displayed log (dropping those whose block fetch throws). -/
def assemblePools (c : Client) (ethos : String → FetchOutcome)
    (logs : List RawLog) (nowSec : Int) : List PoolData :=
  let sorted := sortLogsDesc logs
  let recentLogs := sorted.take 15
  let counts := buildCreatorPoolCount c sorted []
  recentLogs.filterMap (enrichLog c ethos counts nowSec)

/-! ## The part_000 `GET` handler with its 60-second cache -/

def CACHE_TTL : Int := 60000

/-- The single cache slot (the part_000 `Map` holds only the key
`pools_latest`). -/
structure CacheEntry where
  data : List PoolData
  timestamp : Int
deriving DecidableEq, Repr

/-- Response of the part_000 handler.  `cached` is optional because the
route variant omits the key on its empty path. -/
structure PoolsResponse where
  status : Nat
  pools : List PoolData
  lastUpdated : Int
  cached : Option Bool
deriving DecidableEq, Repr

/-- The external world of one request: the ordered provider endpoints and
the per-address Ethos fetch outcome. -/
structure World where
  clients : List Client
  ethos : String → FetchOutcome

/-- The cache-miss path of the part_000 handler, from `fetchLogsWithFallback`
to the response; `now` is the request's `Date.now()` in milliseconds. -/
def GETpoolsScan (w : World) (cache : Option CacheEntry) (now : Int) :
    PoolsResponse × Option CacheEntry :=
  match fetchLogsWithFallback w.clients 25 with
  | none =>
    ({ status := 200, pools := [], lastUpdated := now, cached := some false },
     cache)
  | some (logs, c, _) =>
    if logs.isEmpty then
      ({ status := 200, pools := [], lastUpdated := now, cached := some false },
       cache)
    else
      let poolsData := assemblePools c w.ethos logs (now / 1000)
      ({ status := 200, pools := poolsData, lastUpdated := now,
         cached := some false },
       some { data := poolsData, timestamp := now })

/-- The part_000 `GET` handler: serve the cache entry while strictly
younger than the TTL, otherwise run the scan path. -/
def GETpools (w : World) (cache : Option CacheEntry) (now : Int) :
    PoolsResponse × Option CacheEntry :=
  match cache with
  | some entry =>
    if now - entry.timestamp < CACHE_TTL then
      ({ status := 200, pools := entry.data, lastUpdated := entry.timestamp,
         cached := some true },
       some entry)
    else GETpoolsScan w (some entry) now
  | none => GETpoolsScan w none now

/-! ## The route variant of the handler -/

/-- The `PoolData` record of the route variant: no pair label, no error
field, no first-deployment flag; block number serialized as a string. -/
structure PoolDataSimple where
  pool : String
  token0 : String
  token1 : String
  token0Symbol : String
  token1Symbol : String
  stable : Bool
  deployer : String
  timestamp : Int
  ethosScore : Option Int
  blockNumber : String
  transactionHash : String
deriving DecidableEq, Repr

/-- Enrichment of one displayed log in the route variant. -/
def enrichLogSimple (c : Client) (ethos : String → FetchOutcome)
    (log : RawLog) : Option PoolDataSimple :=
  let token0Symbol := getTokenSymbol c log.token0
  let token1Symbol := getTokenSymbol c log.token1
  let deployer := resolveCreator c log
  match c.blockTimestamp log.blockNumber with
  | none => none
  | some ts =>
    some {
      pool := log.pool
      token0 := log.token0
      token1 := log.token1
      token0Symbol := token0Symbol
      token1Symbol := token1Symbol
      stable := log.stable
      deployer := deployer
      timestamp := ts
      ethosScore := getEthosScoreSimple (ethos deployer)
      blockNumber := toString log.blockNumber
      transactionHash := log.transactionHash.getD "" }

structure RouteCacheEntry where
  data : List PoolDataSimple
  timestamp : Int
deriving DecidableEq, Repr

structure RouteResponse where
  status : Nat
  pools : List PoolDataSimple
  lastUpdated : Int
  cached : Option Bool
deriving DecidableEq, Repr

/-- The cache-miss path of the route variant.  Its empty-scan return is
`{ pools: [], lastUpdated: Date.now() }` with no `cached` key at all. -/
def GETpoolsRouteScan (w : World) (cache : Option RouteCacheEntry)
    (now : Int) : RouteResponse × Option RouteCacheEntry :=
  match fetchLogsWithFallback w.clients 20 with
  | none =>
    ({ status := 200, pools := [], lastUpdated := now, cached := none },
     cache)
  | some (logs, c, _) =>
    if logs.isEmpty then
      ({ status := 200, pools := [], lastUpdated := now, cached := none },
       cache)
    else
      let recentLogs := (sortLogsDesc logs).take 15
      let poolsData := recentLogs.filterMap (enrichLogSimple c w.ethos)
      ({ status := 200, pools := poolsData, lastUpdated := now,
         cached := some false },
       some { data := poolsData, timestamp := now })

/-- The route variant `GET` handler. -/
def GETpoolsRoute (w : World) (cache : Option RouteCacheEntry) (now : Int) :
    RouteResponse × Option RouteCacheEntry :=
  match cache with
  | some entry =>
    if now - entry.timestamp < CACHE_TTL then
      ({ status := 200, pools := entry.data, lastUpdated := entry.timestamp,
         cached := some true },
       some entry)
    else GETpoolsRouteScan w (some entry) now
  | none => GETpoolsRouteScan w none now

/-- Occurrence count of an address, case-insensitively, among the resolved
creators of the raw events of one scan (the events that carry a
transaction hash; the spec-side counterpart of the count loop). -/
def creatorOccurrences (c : Client) (logs : List RawLog) (addr : String) :
    Nat :=
  (logs.filterMap
    (fun l => l.transactionHash.map
      (fun h => toLowerCase (getTransactionSender c h)))).count (toLowerCase addr)

/-! ## Concrete worlds used to instantiate the theorems -/

/-- A raw log with fixed token addresses. -/
def mkLog (bn : Int) (tx pl : String) : RawLog :=
  { token0 := "0xT0", token1 := "0xT1", stable := false, pool := pl,
    blockNumber := bn, transactionHash := some tx }

def logA : RawLog := mkLog 100 "t1" "p1"

def logB : RawLog := mkLog 250 "t2" "p2"

def logC : RawLog := mkLog 75 "t3" "p3"

/-- A provider that answers every range query with zero events. -/
def clientZero : Client :=
  { blockNumber := some 4000
    logsInRange := fun _ _ => some []
    receiptFrom := fun _ => none
    symbolOf := fun _ => none
    blockTimestamp := fun _ => none }

/-- A provider whose scan finds three events in the chunk covering blocks
75–250; two of the three creators are the same address in different
letter case. -/
def clientMain : Client :=
  { blockNumber := some 5000
    logsInRange := fun f t =>
      if f ≤ 75 ∧ 250 ≤ t then some [logA, logB, logC] else some []
    receiptFrom := fun h =>
      if h = "t1" then some "0xAbC"
      else if h = "t2" then some "0xabc"
      else if h = "t3" then some "0xDEF" else none
    symbolOf := fun a => if a = "0xT0" then some "TOK0" else none
    blockTimestamp := fun bn => some (1700000000 + bn) }

/-- Per-address Ethos outcomes: a numeric score, a network failure, and a
2xx null score. -/
def mainEthos : String → FetchOutcome := fun addr =>
  if addr = "0xDEF" then .response 200 (some 1500)
  else if addr = "0xAbC" then .failure "fetch failed"
  else .response 200 none

/-- First provider yields zero events, second yields three. -/
def wMain : World := { clients := [clientZero, clientMain], ethos := mainEthos }

/-- World whose every reputation fetch aborts at the timeout. -/
def wTimeout : World :=
  { clients := [clientMain], ethos := fun _ => .failure "This operation was aborted" }

/-- World whose every reputation fetch succeeds with a null score. -/
def wNullScore : World :=
  { clients := [clientMain], ethos := fun _ => .response 200 none }

/-- A provider whose block-number query throws. -/
def clientErr : Client :=
  { blockNumber := none
    logsInRange := fun _ _ => none
    receiptFrom := fun _ => none
    symbolOf := fun _ => none
    blockTimestamp := fun _ => none }

/-- Every provider errors or yields zero events. -/
def wEmpty : World :=
  { clients := [clientErr, clientZero], ethos := fun _ => .response 200 none }

/-- Like `clientMain` but the head chunk query `[3001, 5000]` throws. -/
def clientFail : Client :=
  { blockNumber := some 5000
    logsInRange := fun f t =>
      if t = 5000 then none
      else if f ≤ 75 ∧ 250 ≤ t then some [logA, logB, logC] else some []
    receiptFrom := clientMain.receiptFrom
    symbolOf := clientMain.symbolOf
    blockTimestamp := clientMain.blockTimestamp }

/-- A provider with two events whose block fetch throws for block 200. -/
def clientDrop : Client :=
  { blockNumber := some 5000
    logsInRange := fun f t =>
      if f ≤ 90 ∧ 200 ≤ t then some [mkLog 200 "u1" "q1", mkLog 90 "u2" "q2"]
      else some []
    receiptFrom := fun _ => some "0xFEE"
    symbolOf := fun _ => none
    blockTimestamp := fun bn => if bn = 200 then none else some 1234 }

def wDrop : World := { clients := [clientDrop], ethos := fun _ => .response 200 (some 7) }

/-- The enriched record the part_000 pipeline produces for `logC` in
`wMain` (creator `0xDEF`, the unique creator of the window). -/
def poolOfDEF : PoolData :=
  { pool := "p3"
    token0 := "0xT0"
    token1 := "0xT1"
    token0Symbol := "TOK0"
    token1Symbol := "0xT1..."
    pair := "TOK0/0xT1..."
    stable := false
    creator := "0xDEF"
    creatorShort := "0xDEF...DEF"
    creatorScore := some 1500
    scoreSource := "ethos"
    scoreError := none
    blockNumber := 75
    timestamp := 1700000075
    timeAgo := "-1699999075s"
    txHash := "t3"
    basescanLink := "https://basescan.org/tx/t3"
    isFirstPoolByCreator := true }

/-! ## Helper lemmas about the chunk loop -/

/-- Once the accumulated logs reach the threshold, the loop issues no
further queries and returns the accumulator unchanged. -/
lemma scanGo_stop (c : Client) (current : Int) (threshold : Nat)
    (js : List Nat) (acc : List RawLog) (h : threshold ≤ acc.length) :
    scanGo c current threshold js acc = (acc, []) := by
  cases js with
  | nil => rfl
  | cons j js => simp [scanGo, h]

/-- The trace of issued queries is the chunk queries of a prefix of the
remaining iteration indices. -/
lemma scanGo_trace (c : Client) (current : Int) (threshold : Nat) :
    ∀ (js : List Nat) (acc : List RawLog), ∃ n, n ≤ js.length ∧
      (scanGo c current threshold js acc).2 =
        (js.take n).map (chunkQuery current)
  | [], _ => ⟨0, by simp [scanGo]⟩
  | j :: js, acc => by
    by_cases h : threshold ≤ acc.length
    · exact ⟨0, by simp [scanGo, h]⟩
    · cases hx : c.logsInRange (chunkQuery current j).1 (chunkQuery current j).2 with
      | none =>
        obtain ⟨n, hn, ht⟩ := scanGo_trace c current threshold js acc
        exact ⟨n + 1, by simpa using hn, by simp [scanGo, h, hx, ht]⟩
      | some logs =>
        obtain ⟨n, hn, ht⟩ := scanGo_trace c current threshold js (acc ++ logs)
        exact ⟨n + 1, by simpa using hn, by simp [scanGo, h, hx, ht]⟩

/-- The accumulated logs are exactly the accumulator followed by the
concatenated results of the successful queries in the trace; a failed
query contributes nothing. -/
lemma scanGo_acc (c : Client) (current : Int) (threshold : Nat) :
    ∀ (js : List Nat) (acc : List RawLog),
      (scanGo c current threshold js acc).1 =
        acc ++ (((scanGo c current threshold js acc).2).filterMap
          (fun q => c.logsInRange q.1 q.2)).flatten
  | [], acc => by simp [scanGo]
  | j :: js, acc => by
    by_cases h : threshold ≤ acc.length
    · simp [scanGo_stop c current threshold _ _ h]
    · cases hx : c.logsInRange (chunkQuery current j).1 (chunkQuery current j).2 with
      | none =>
        have ih := scanGo_acc c current threshold js acc
        simp [scanGo, h, hx] at ih ⊢
        exact ih
      | some logs =>
        have ih := scanGo_acc c current threshold js (acc ++ logs)
        simp [scanGo, h, hx] at ih ⊢
        simpa [List.append_assoc] using ih

/-- The trace of a full provider scan is the chunk-query sequence of the
first `n` iterations, for some `n ≤ 50` determined by the early stop. -/
lemma scanClient_trace (c : Client) (current : Int) (threshold : Nat) :
    ∃ n, n ≤ chunkCount ∧
      (scanClient c current threshold).2 =
        (List.range n).map (chunkQuery current) := by
  obtain ⟨n, hn, ht⟩ :=
    scanGo_trace c current threshold (List.range chunkCount) []
  have hn50 : n ≤ chunkCount := by simpa using hn
  refine ⟨n, hn50, ?_⟩
  show (scanGo c current threshold (List.range chunkCount) []).2 = _
  rw [ht, List.take_range, Nat.min_eq_left hn50]

/-- A block is in the chunk sent at iteration `j` exactly when it is at
least 1 (the clamp floor) and lies in the `j`-th backward 2000-block
stripe. -/
lemma coversBlock_iff (current : Int) (j : Nat) (b : Int) :
    coversBlock (chunkQuery current j) b ↔
      1 ≤ b ∧ current - rangeSize * (j + 1) < b ∧
        b ≤ current - rangeSize * j := by
  simp only [coversBlock, chunkQuery, chunkSentFrom, chunkFromBlock,
    chunkToBlock, rangeSize]
  split <;> omega

/-- Every block of the scanned window (down to the clamp floor 1) is
covered by some issued chunk. -/
lemma coversBlock_exists (current : Int) (k : Nat) (b : Int)
    (hb1 : 1 ≤ b) (hlo : current - rangeSize * k < b) (hhi : b ≤ current) :
    ∃ j < k, coversBlock (chunkQuery current j) b := by
  have hd : (0 : Int) ≤ current - b := by omega
  have hdk : current - b < rangeSize * k := by
    simp only [rangeSize] at hlo ⊢; omega
  set d : Nat := (current - b).toNat with hdf
  have hdeq : (d : Int) = current - b := Int.toNat_of_nonneg hd
  refine ⟨d / 2000, ?_, ?_⟩
  · have h1 := Nat.div_add_mod d 2000
    have h2 := Nat.mod_lt d (show 0 < 2000 by norm_num)
    simp only [rangeSize] at hdk
    omega
  · rw [coversBlock_iff]
    have h1 := Nat.div_add_mod d 2000
    have h2 := Nat.mod_lt d (show 0 < 2000 by norm_num)
    simp only [rangeSize]
    omega

/-- No block is covered by two distinct issued chunks. -/
lemma coversBlock_unique (current : Int) (b : Int) (j j' : Nat)
    (h : coversBlock (chunkQuery current j) b)
    (h' : coversBlock (chunkQuery current j') b) : j = j' := by
  rw [coversBlock_iff] at h h'
  simp only [rangeSize] at h h'
  omega

/-! ## Helper lemmas about provider fallback and the handlers -/

/-- When every remaining provider errors on the block-number query or
scans to zero events, the fallback yields nothing. -/
lemma fetchGo_none (threshold : Nat) :
    ∀ (clients : List Client) (idx : Nat),
      (∀ c ∈ clients, ∀ cur, c.blockNumber = some cur →
          (scanClient c cur threshold).1 = []) →
      fetchLogsWithFallbackGo threshold clients idx = none
  | [], _, _ => rfl
  | c :: rest, idx, h => by
    have hrest := fetchGo_none threshold rest (idx + 1)
      (fun c' hc' cur hbn => h c' (List.mem_cons_of_mem c hc') cur hbn)
    cases hbn : c.blockNumber with
    | none => simp [fetchLogsWithFallbackGo, hbn, hrest]
    | some cur =>
      have hempty := h c (List.mem_cons_self c rest) cur hbn
      simp [fetchLogsWithFallbackGo, hbn, hempty, hrest]

/-- The fallback returns the scan of the first provider (position `k`)
whose block-number query answers and whose scan is nonempty, along with
that provider's handle and position. -/
lemma fetchGo_first (threshold : Nat) (current : Int) :
    ∀ (clients : List Client) (k idx : Nat) (ck : Client),
      (∀ i, i < k → ∀ ci, clients.get? i = some ci → ∀ cur,
          ci.blockNumber = some cur → (scanClient ci cur threshold).1 = []) →
      clients.get? k = some ck →
      ck.blockNumber = some current →
      (scanClient ck current threshold).1 ≠ [] →
      fetchLogsWithFallbackGo threshold clients idx =
        some ((scanClient ck current threshold).1, ck, idx + k)
  | [], k, _, _, _, hk, _, _ => by simp at hk
  | c :: rest, 0, idx, ck, _, hk, hbn, hne => by
    have hceq : c = ck := by simpa using hk
    subst hceq
    have hpos : 0 < (scanClient c current threshold).1.length :=
      List.length_pos.mpr hne
    simp [fetchLogsWithFallbackGo, hbn, hpos]
  | c :: rest, k + 1, idx, ck, hskip, hk, hbn, hne => by
    have h0 := hskip 0 (Nat.succ_pos k) c rfl
    have ih := fetchGo_first threshold current rest k (idx + 1) ck
      (fun i hi ci hget cur hbn' =>
        hskip (i + 1) (Nat.succ_lt_succ hi) ci (by simpa using hget) cur hbn')
      (by simpa using hk) hbn hne
    have harith : idx + 1 + k = idx + (k + 1) := by omega
    cases hbn0 : c.blockNumber with
    | none => simp [fetchLogsWithFallbackGo, hbn0, ih, harith]
    | some cur =>
      have hempty := h0 cur hbn0
      simp [fetchLogsWithFallbackGo, hbn0, hempty, ih, harith]

/-- The scan path of the part_000 handler on a successful nonempty fetch. -/
lemma GETpoolsScan_of_fetch (w : World) (cache : Option CacheEntry)
    (now : Int) (logs : List RawLog) (c : Client) (idx : Nat)
    (hf : fetchLogsWithFallback w.clients 25 = some (logs, c, idx))
    (hne : logs ≠ []) :
    GETpoolsScan w cache now =
      ({ status := 200, pools := assemblePools c w.ethos logs (now / 1000),
         lastUpdated := now, cached := some false },
       some { data := assemblePools c w.ethos logs (now / 1000),
              timestamp := now }) := by
  cases logs with
  | nil => exact absurd rfl hne
  | cons l ls => simp [GETpoolsScan, hf]

/-- The scan path of the route handler on a successful nonempty fetch. -/
lemma GETpoolsRouteScan_of_fetch (w : World) (cache : Option RouteCacheEntry)
    (now : Int) (logs : List RawLog) (c : Client) (idx : Nat)
    (hf : fetchLogsWithFallback w.clients 20 = some (logs, c, idx))
    (hne : logs ≠ []) :
    GETpoolsRouteScan w cache now =
      ({ status := 200,
         pools := ((sortLogsDesc logs).take 15).filterMap
           (enrichLogSimple c w.ethos),
         lastUpdated := now, cached := some false },
       some { data := ((sortLogsDesc logs).take 15).filterMap
                (enrichLogSimple c w.ethos),
              timestamp := now }) := by
  cases logs with
  | nil => exact absurd rfl hne
  | cons l ls => simp [GETpoolsRouteScan, hf]

/-- The scan path always reports `cached: false` and status 200. -/
lemma GETpoolsScan_shape (w : World) (cache : Option CacheEntry)
    (now : Int) :
    (GETpoolsScan w cache now).1.cached = some false ∧
    (GETpoolsScan w cache now).1.status = 200 := by
  unfold GETpoolsScan
  cases hf : fetchLogsWithFallback w.clients 25 with
  | none => exact ⟨rfl, rfl⟩
  | some r =>
    obtain ⟨logs, c, idx⟩ := r
    by_cases he : logs.isEmpty <;> simp [he]

/-- The part_000 handler never answers with a non-200 status in the
modelled (non-exceptional) semantics. -/
lemma GETpools_status (w : World) (cache : Option CacheEntry) (now : Int) :
    (GETpools w cache now).1.status = 200 := by
  unfold GETpools
  cases cache with
  | none => exact (GETpoolsScan_shape w none now).2
  | some entry =>
    by_cases h : now - entry.timestamp < CACHE_TTL
    · simp [h]
    · simp [h, (GETpoolsScan_shape w (some entry) now).2]

/-- The route-variant scan path never answers with a non-200 status. -/
lemma GETpoolsRouteScan_status (w : World) (cache : Option RouteCacheEntry)
    (now : Int) : (GETpoolsRouteScan w cache now).1.status = 200 := by
  unfold GETpoolsRouteScan
  cases hf : fetchLogsWithFallback w.clients 20 with
  | none => rfl
  | some r =>
    obtain ⟨logs, c, idx⟩ := r
    by_cases he : logs.isEmpty <;> simp [he]

/-- The route-variant handler never answers with a non-200 status. -/
lemma GETpoolsRoute_status (w : World) (cache : Option RouteCacheEntry)
    (now : Int) : (GETpoolsRoute w cache now).1.status = 200 := by
  unfold GETpoolsRoute
  cases cache with
  | none => exact GETpoolsRouteScan_status w none now
  | some entry =>
    by_cases h : now - entry.timestamp < CACHE_TTL
    · simp [h]
    · simp [h, GETpoolsRouteScan_status w (some entry) now]

/-- `clientZero` accumulates zero events at any head block and
threshold. -/
lemma scan_clientZero (current : Int) (threshold : Nat) :
    (scanClient clientZero current threshold).1 = [] := by
  have h : (scanClient clientZero current threshold).1 =
      (((scanClient clientZero current threshold).2).filterMap
        (fun q => clientZero.logsInRange q.1 q.2)).flatten :=
    scanGo_acc clientZero current threshold (List.range chunkCount) []
  rw [h, List.flatten_eq_nil_iff]
  intro l hl
  simp only [List.mem_filterMap] at hl
  obtain ⟨q, _, hq⟩ := hl
  simpa [clientZero] using hq.symm

/-- In `wMain` the first provider scans to zero events and the second
yields the three logs, so the fallback selects the second provider. -/
lemma fetch_wMain :
    fetchLogsWithFallback wMain.clients 25 =
      some ([logA, logB, logC], clientMain, 1) := by
  have h := fetchGo_first 25 5000 [clientZero, clientMain] 1 0 clientMain
    (by
      intro i hi ci hget cur hbn
      interval_cases i
      have hci : ci = clientZero := by simpa using hget.symm
      subst hci
      exact scan_clientZero cur 25)
    rfl rfl (by decide)
  have hscan : (scanClient clientMain 5000 25).1 = [logA, logB, logC] := by
    decide
  rw [hscan] at h
  exact h

/-- The same selection at the route variant's threshold 20. -/
lemma fetch_wMain20 :
    fetchLogsWithFallback wMain.clients 20 =
      some ([logA, logB, logC], clientMain, 1) := by
  have h := fetchGo_first 20 5000 [clientZero, clientMain] 1 0 clientMain
    (by
      intro i hi ci hget cur hbn
      interval_cases i
      have hci : ci = clientZero := by simpa using hget.symm
      subst hci
      exact scan_clientZero cur 20)
    rfl rfl (by decide)
  have hscan : (scanClient clientMain 5000 20).1 = [logA, logB, logC] := by
    decide
  rw [hscan] at h
  exact h

/-! ## Helper lemmas: the creator-count map, enrichment and the sort -/

lemma mapGetD_mapSet_self (m : List (String × Nat)) (k : String) (v : Nat) :
    mapGetD (mapSet m k v) k = v := by
  induction m with
  | nil => simp [mapGetD, mapSet]
  | cons e m ih =>
    by_cases he : e.1 = k
    · simp [mapGetD, mapSet, he]
    · simpa [mapGetD, mapSet, he] using ih

lemma mapGetD_mapSet_ne (m : List (String × Nat)) (k k' : String) (v : Nat)
    (h : k' ≠ k) : mapGetD (mapSet m k v) k' = mapGetD m k' := by
  induction m with
  | nil => simp [mapGetD, mapSet, Ne.symm h]
  | cons e m ih =>
    by_cases he : e.1 = k
    · simp [mapGetD, mapSet, he, Ne.symm h]
    · by_cases he' : e.1 = k'
      · simp [mapGetD, mapSet, he, he', h]
      · simpa [mapGetD, mapSet, he, he'] using ih

/-- The per-creator count map agrees with the occurrence count of the
lowercased resolved senders of the transaction-carrying logs. -/
lemma buildCreatorPoolCount_getD (c : Client) :
    ∀ (logs : List RawLog) (m : List (String × Nat)) (key : String),
      mapGetD (buildCreatorPoolCount c logs m) key =
        mapGetD m key +
          (logs.filterMap (fun l => l.transactionHash.map
            (fun h => toLowerCase (getTransactionSender c h)))).count key
  | [], m, key => by simp [buildCreatorPoolCount]
  | log :: rest, m, key => by
    cases htx : log.transactionHash with
    | none =>
      simpa [buildCreatorPoolCount, htx]
        using buildCreatorPoolCount_getD c rest m key
    | some h =>
      have ih := buildCreatorPoolCount_getD c rest
        (mapSet m (toLowerCase (getTransactionSender c h))
          (mapGetD m (toLowerCase (getTransactionSender c h)) + 1)) key
      by_cases hk : key = toLowerCase (getTransactionSender c h)
      · subst hk
        simp [buildCreatorPoolCount, htx, ih, mapGetD_mapSet_self,
          List.count_cons_self]
        omega
      · simp [buildCreatorPoolCount, htx, ih,
          mapGetD_mapSet_ne _ _ _ _ hk, List.count_cons_of_ne hk]

/-- The occurrence count is invariant under the stable sort. -/
lemma count_creators_sorted (c : Client) (logs : List RawLog)
    (key : String) :
    ((sortLogsDesc logs).filterMap (fun l => l.transactionHash.map
        (fun h => toLowerCase (getTransactionSender c h)))).count key =
      (logs.filterMap (fun l => l.transactionHash.map
        (fun h => toLowerCase (getTransactionSender c h)))).count key :=
  ((List.perm_insertionSort logGE logs).filterMap _).count_eq key

/-- The record `enrichLog` emits when the block fetch succeeds. -/
lemma enrichLog_eq_some (c : Client) (ethos : String → FetchOutcome)
    (counts : List (String × Nat)) (nowSec : Int) (log : RawLog) (ts : Int)
    (h : c.blockTimestamp log.blockNumber = some ts) :
    enrichLog c ethos counts nowSec log = some
      { pool := log.pool
        token0 := log.token0
        token1 := log.token1
        token0Symbol := getTokenSymbol c log.token0
        token1Symbol := getTokenSymbol c log.token1
        pair := getTokenSymbol c log.token0 ++ "/" ++
          getTokenSymbol c log.token1
        stable := log.stable
        creator := resolveCreator c log
        creatorShort := shortenAddress (resolveCreator c log)
        creatorScore := (getEthosScore (ethos (resolveCreator c log))).score
        scoreSource := "ethos"
        scoreError := (getEthosScore (ethos (resolveCreator c log))).error
        blockNumber := log.blockNumber
        timestamp := ts
        timeAgo := formatTimeAgo nowSec ts
        txHash := log.transactionHash.getD ""
        basescanLink := "https://basescan.org/tx/" ++
          (match log.transactionHash with | some h => h | none => "null")
        isFirstPoolByCreator :=
          mapGetD counts (toLowerCase (resolveCreator c log)) == 1 } := by
  simp [enrichLog, h]

/-- The event is dropped exactly when its block fetch throws. -/
lemma enrichLog_eq_none (c : Client) (ethos : String → FetchOutcome)
    (counts : List (String × Nat)) (nowSec : Int) (log : RawLog)
    (h : c.blockTimestamp log.blockNumber = none) :
    enrichLog c ethos counts nowSec log = none := by
  simp [enrichLog, h]

lemma mem_assemblePools {c : Client} {ethos : String → FetchOutcome}
    {logs : List RawLog} {nowSec : Int} {p : PoolData} :
    p ∈ assemblePools c ethos logs nowSec ↔
      ∃ log ∈ (sortLogsDesc logs).take 15,
        enrichLog c ethos (buildCreatorPoolCount c (sortLogsDesc logs) [])
          nowSec log = some p := by
  simp [assemblePools, List.mem_filterMap]

/-- Every emitted record's creator, reputation fields, block number and
first-deployment flag, in terms of its originating log. -/
lemma assemblePools_record {c : Client} {ethos : String → FetchOutcome}
    {logs : List RawLog} {nowSec : Int} {p : PoolData}
    (hp : p ∈ assemblePools c ethos logs nowSec) :
    ∃ log ∈ (sortLogsDesc logs).take 15, ∃ ts,
      c.blockTimestamp log.blockNumber = some ts ∧
      p.creator = resolveCreator c log ∧
      p.creatorScore = (getEthosScore (ethos p.creator)).score ∧
      p.scoreError = (getEthosScore (ethos p.creator)).error ∧
      p.blockNumber = log.blockNumber ∧
      p.isFirstPoolByCreator =
        (mapGetD (buildCreatorPoolCount c (sortLogsDesc logs) [])
          (toLowerCase p.creator) == 1) := by
  obtain ⟨log, hlog, he⟩ := mem_assemblePools.mp hp
  cases hts : c.blockTimestamp log.blockNumber with
  | none =>
    rw [enrichLog_eq_none c ethos _ nowSec log hts] at he
    exact absurd he (by simp)
  | some ts =>
    rw [enrichLog_eq_some c ethos _ nowSec log ts hts] at he
    obtain rfl := Option.some.inj he
    exact ⟨log, hlog, ts, hts, rfl, rfl, rfl, rfl, rfl⟩

/-- Stability of the modelled sort: the logs at any fixed block number
keep their discovery order. -/
lemma sortLogsDesc_filter (logs : List RawLog) (v : Int) :
    (sortLogsDesc logs).filter (fun l => l.blockNumber == v) =
      logs.filter (fun l => l.blockNumber == v) := by
  have hpair : (logs.filter (fun l => l.blockNumber == v)).Pairwise logGE := by
    apply List.pairwise_of_forall_mem_list
    intro a ha b hb
    have ha' := (List.mem_filter.mp ha).2
    have hb' := (List.mem_filter.mp hb).2
    simp only [beq_iff_eq] at ha' hb'
    show b.blockNumber ≤ a.blockNumber
    rw [ha', hb']
  have hsub : List.Sublist (logs.filter (fun l => l.blockNumber == v))
      (sortLogsDesc logs) :=
    List.sublist_insertionSort hpair (List.filter_sublist logs)
  have hsub2 : List.Sublist (logs.filter (fun l => l.blockNumber == v))
      ((sortLogsDesc logs).filter (fun l => l.blockNumber == v)) := by
    have hff : ((logs.filter (fun l => l.blockNumber == v)).filter
        (fun l => l.blockNumber == v)) =
        logs.filter (fun l => l.blockNumber == v) := by
      rw [List.filter_eq_self]
      intro a ha
      exact (List.mem_filter.mp ha).2
    have h2 := hsub.filter (fun l => l.blockNumber == v)
    rwa [hff] at h2
  have hperm : List.Perm
      ((sortLogsDesc logs).filter (fun l => l.blockNumber == v))
      (logs.filter (fun l => l.blockNumber == v)) :=
    (List.perm_insertionSort logGE logs).filter _
  exact (hsub2.eq_of_length hperm.length_eq.symm).symm

/-- Pairwise transfer through `filterMap`. -/
lemma pairwise_filterMap_of_pairwise {α β : Type} {R : α → α → Prop}
    {S : β → β → Prop} (f : α → Option β)
    (hf : ∀ a b x y, R a b → f a = some x → f b = some y → S x y) :
    ∀ {l : List α}, l.Pairwise R → (l.filterMap f).Pairwise S := by
  intro l hl
  induction hl with
  | nil => simp
  | @cons a l ha _ ih =>
    cases hfa : f a with
    | none => simpa [List.filterMap_cons, hfa] using ih
    | some x =>
      simp only [List.filterMap_cons, hfa, List.pairwise_cons]
      refine ⟨fun y hy => ?_, ih⟩
      obtain ⟨b, hb, hfb⟩ := List.mem_filterMap.mp hy
      exact hf a b x y (ha b hb) hfa hfb

/-- A successfully enriched record keeps its log's block number. -/
lemma enrichLog_blockNumber {c : Client} {ethos : String → FetchOutcome}
    {counts : List (String × Nat)} {nowSec : Int} {log : RawLog}
    {p : PoolData} (h : enrichLog c ethos counts nowSec log = some p) :
    p.blockNumber = log.blockNumber := by
  cases hts : c.blockTimestamp log.blockNumber with
  | none =>
    rw [enrichLog_eq_none c ethos counts nowSec log hts] at h
    exact absurd h (by simp)
  | some ts =>
    rw [enrichLog_eq_some c ethos counts nowSec log ts hts] at h
    obtain rfl := Option.some.inj h
    rfl

/-- The emitted pool list is sorted by block number descending. -/
lemma assemblePools_bn_sorted (c : Client) (ethos : String → FetchOutcome)
    (logs : List RawLog) (nowSec : Int) :
    List.Sorted (fun a b => b ≤ a)
      ((assemblePools c ethos logs nowSec).map PoolData.blockNumber) := by
  have hs : List.Sorted logGE (sortLogsDesc logs) :=
    List.sorted_insertionSort logGE logs
  have ht : ((sortLogsDesc logs).take 15).Pairwise logGE :=
    List.Pairwise.sublist (List.take_sublist 15 _) hs
  have hp : (assemblePools c ethos logs nowSec).Pairwise
      (fun p q => q.blockNumber ≤ p.blockNumber) := by
    refine pairwise_filterMap_of_pairwise _ ?_ ht
    intro a b x y hab hfa hfb
    rw [enrichLog_blockNumber hfa, enrichLog_blockNumber hfb]
    exact hab
  exact List.pairwise_map.mpr hp

/-! ## Claim theorems -/

/-- Claim C6: Chunk partition of the scanned window: the queries a scan issues
are always the backward chunk sequence of some first `n ≤ 50` iterations;
within the window reached by `k` issued chunks, every block from the clamp
floor up to the head block is covered by exactly one issued chunk, no
issued chunk reaches outside `[1, currentBlock]`, and each chunk's
computed start is one above the inclusive end of the next (lower) chunk,
including when the computed `fromBlock` is clamped at block 1. -/
theorem chunk_partition_covers_exactly_once (current : Int) (k : Nat) :
    (∀ (c : Client) (threshold : Nat), ∃ n, n ≤ chunkCount ∧
        (scanClient c current threshold).2 =
          (List.range n).map (chunkQuery current)) ∧
    (∀ b, 1 ≤ b → current - rangeSize * k < b → b ≤ current →
        ∃ j < k, coversBlock (chunkQuery current j) b) ∧
    (∀ b j j', coversBlock (chunkQuery current j) b →
        coversBlock (chunkQuery current j') b → j = j') ∧
    (∀ j b, coversBlock (chunkQuery current j) b → 1 ≤ b ∧ b ≤ current) ∧
    (∀ j, chunkToBlock current (j + 1) = chunkFromBlock current j - 1) := by
  refine ⟨fun c threshold => scanClient_trace c current threshold,
    fun b hb1 hlo hhi => coversBlock_exists current k b hb1 hlo hhi,
    fun b j j' h h' => coversBlock_unique current b j j' h h',
    fun j b h => ?_, fun j => ?_⟩
  · rw [coversBlock_iff] at h
    simp only [rangeSize] at h
    omega
  · simp only [chunkToBlock, chunkFromBlock, rangeSize]
    push_cast
    ring

/-- Witness for C6 at `current = 3000`, `k = 2`: block 1 lies in the
second, clamped chunk, and a concrete scan's trace is a chunk-sequence
prefix. -/
theorem chunk_partition_covers_exactly_once_witness :
    (∃ j < 2, coversBlock (chunkQuery 3000 j) 1) ∧
    (∃ n, n ≤ chunkCount ∧
        (scanClient clientZero 3000 25).2 =
          (List.range n).map (chunkQuery 3000)) ∧
    chunkToBlock 3000 1 = chunkFromBlock 3000 0 - 1 :=
  ⟨(chunk_partition_covers_exactly_once 3000 2).2.1 1 (by decide)
      (by decide) (by decide),
   (chunk_partition_covers_exactly_once 3000 2).1 clientZero 25,
   (chunk_partition_covers_exactly_once 3000 2).2.2.2.2 0⟩

/-- Claim C10: Per-provider query budget and early stop: a scan issues at most
`chunkCount = 50 = 100000 / 2000` chunk queries; the loop stops issuing
queries as soon as the accumulated log count reaches the threshold; and
the raw event set is exactly the concatenation of the successful responses
of the chunks actually queried. -/
theorem scan_budget_and_early_stop (c : Client) (current : Int)
    (threshold : Nat) :
    ((scanClient c current threshold).2.length ≤ chunkCount) ∧
    (chunkCount = 50 ∧ rangeSize * chunkCount = totalRange) ∧
    (∀ (js : List Nat) (acc : List RawLog), threshold ≤ acc.length →
        scanGo c current threshold js acc = (acc, [])) ∧
    ((scanClient c current threshold).1 =
        (((scanClient c current threshold).2).filterMap
          (fun q => c.logsInRange q.1 q.2)).flatten) := by
  refine ⟨?_, ⟨rfl, by decide⟩,
    fun js acc h => scanGo_stop c current threshold js acc h,
    scanGo_acc c current threshold (List.range chunkCount) []⟩
  obtain ⟨n, hn, ht⟩ := scanClient_trace c current threshold
  rw [ht]
  simpa using hn

/-- Witness for C10: the part_000 threshold 25 on a concrete provider,
and the early stop fires at a one-element accumulator for threshold 1. -/
theorem scan_budget_and_early_stop_witness :
    ((scanClient clientMain 5000 25).2.length ≤ chunkCount) ∧
    scanGo clientMain 5000 1 [3, 4] [logA] = ([logA], []) :=
  ⟨(scan_budget_and_early_stop clientMain 5000 25).1,
   (scan_budget_and_early_stop clientMain 5000 1).2.2.1 [3, 4] [logA]
      (by decide)⟩

/-- Claim C3 counterexample: in the concrete provider `clientFail` the head
chunk query `[3001, 5000]` throws; the scan issues no query strictly
inside that failed chunk (no subdivision tier, no retry), the failed chunk
contributes zero events, and the scan still returns its other events
without a hard error. -/
theorem failed_chunk_not_subdivided :
    clientFail.logsInRange 3001 5000 = none ∧
    (3001, 5000) ∈ (scanClient clientFail 5000 25).2 ∧
    (∀ q ∈ (scanClient clientFail 5000 25).2,
        ¬(3001 ≤ q.1 ∧ q.2 ≤ 5000 ∧ q ≠ (3001, 5000))) ∧
    (scanClient clientFail 5000 25).1 = [logA, logB, logC] ∧
    (fetchLogsWithFallback [clientFail] 25).map (fun r => r.1) =
      some [logA, logB, logC] := by
  decide

/-- Claim C3 amended: a failed chunk query is skipped outright — every query a
scan issues is a top-level chunk of the fixed 2000-block sequence (so a
failed chunk is never subdivided or retried), and the returned events are
exactly the concatenated results of the successful queries, so an
exhausted chunk contributes zero events and no error reaches the
caller. -/
theorem failed_chunk_skipped_outright (c : Client) (current : Int)
    (threshold : Nat) :
    (∀ q ∈ (scanClient c current threshold).2,
        ∃ j, j < chunkCount ∧ q = chunkQuery current j) ∧
    ((scanClient c current threshold).1 =
        (((scanClient c current threshold).2).filterMap
          (fun q => c.logsInRange q.1 q.2)).flatten) := by
  refine ⟨?_, scanGo_acc c current threshold (List.range chunkCount) []⟩
  obtain ⟨n, hn, ht⟩ := scanClient_trace c current threshold
  intro q hq
  rw [ht] at hq
  obtain ⟨j, hj, rfl⟩ := List.mem_map.mp hq
  exact ⟨j, lt_of_lt_of_le (List.mem_range.mp hj) hn, rfl⟩

/-- Witness for C3's amended theorem on the failing concrete provider. -/
theorem failed_chunk_skipped_outright_witness :
    (∃ j, j < chunkCount ∧ (3001, 5000) = chunkQuery 5000 j) ∧
    ((scanClient clientFail 5000 25).1 =
        (((scanClient clientFail 5000 25).2).filterMap
          (fun q => clientFail.logsInRange q.1 q.2)).flatten) :=
  ⟨(failed_chunk_skipped_outright clientFail 5000 25).1 (3001, 5000)
      (by decide),
   (failed_chunk_skipped_outright clientFail 5000 25).2⟩

/-- Claim C7: Provider fallback: providers are tried strictly in list order; the
result is the scan of the first provider whose block-number query answers
and whose scan yields at least one event, together with that provider's
handle and position, and earlier providers' failures do not appear in the
result; the handler then computes every enrichment lookup through the
returned handle. -/
theorem provider_fallback_first_success :
    (∀ (clients : List Client) (threshold k : Nat) (ck : Client)
        (current : Int),
      (∀ i, i < k → ∀ ci, clients.get? i = some ci → ∀ cur,
          ci.blockNumber = some cur → (scanClient ci cur threshold).1 = []) →
      clients.get? k = some ck →
      ck.blockNumber = some current →
      (scanClient ck current threshold).1 ≠ [] →
      fetchLogsWithFallback clients threshold =
        some ((scanClient ck current threshold).1, ck, k)) ∧
    (∀ (w : World) (cache : Option CacheEntry) (now : Int)
        (logs : List RawLog) (c : Client) (idx : Nat),
      fetchLogsWithFallback w.clients 25 = some (logs, c, idx) → logs ≠ [] →
      (GETpoolsScan w cache now).1.pools =
        assemblePools c w.ethos logs (now / 1000)) := by
  constructor
  · intro clients threshold k ck current hskip hk hbn hne
    simpa [fetchLogsWithFallback]
      using fetchGo_first threshold current clients k 0 ck hskip hk hbn hne
  · intro w cache now logs c idx hf hne
    rw [GETpoolsScan_of_fetch w cache now logs c idx hf hne]

/-- Witness for C7: in `wMain` the zero-yield provider is abandoned and
the fallback returns the second provider's three events and handle. -/
theorem provider_fallback_first_success_witness :
    fetchLogsWithFallback [clientZero, clientMain] 25 =
      some ((scanClient clientMain 5000 25).1, clientMain, 1) ∧
    (scanClient clientMain 5000 25).1 = [logA, logB, logC] := by
  constructor
  · apply provider_fallback_first_success.1 [clientZero, clientMain] 25 1
      clientMain 5000
    · intro i hi ci hget cur hbn
      interval_cases i
      have hci : ci = clientZero := by simpa using hget.symm
      subst hci
      exact scan_clientZero cur 25
    · rfl
    · rfl
    · decide
  · decide

/-- Claim C4 counterexample: in the route variant, a scan in which every
provider errors or yields zero events returns a body that omits the
`cached` key entirely instead of carrying `cached: false`. -/
theorem route_empty_scan_omits_cached :
    (GETpoolsRoute wEmpty none 777).1 =
      { status := 200, pools := [], lastUpdated := 777, cached := none } ∧
    (GETpoolsRoute wEmpty none 777).1.cached ≠ some false := by
  decide

/-- Claim C4 amended: when every provider errors or scans to zero events the
fallback reports no data; the part_000 handler then answers 200 with
`{ pools: [], cached: false }` and a `lastUpdated` timestamp, while the
route variant answers 200 with `{ pools: [] }` and a `lastUpdated`
timestamp but no `cached` key; neither handler ever produces a non-200
status in the modelled (non-exceptional) semantics, the catch-all
unexpected-exception path being the only 500 in the source. -/
theorem empty_scan_degrades_to_success :
    (∀ (w : World) (threshold : Nat),
      (∀ c ∈ w.clients, ∀ cur, c.blockNumber = some cur →
          (scanClient c cur threshold).1 = []) →
      fetchLogsWithFallback w.clients threshold = none) ∧
    (∀ (w : World) (cache : Option CacheEntry) (now : Int),
      fetchLogsWithFallback w.clients 25 = none →
      GETpoolsScan w cache now =
        ({ status := 200, pools := [], lastUpdated := now,
           cached := some false }, cache)) ∧
    (∀ (w : World) (cache : Option RouteCacheEntry) (now : Int),
      fetchLogsWithFallback w.clients 20 = none →
      GETpoolsRouteScan w cache now =
        ({ status := 200, pools := [], lastUpdated := now,
           cached := none }, cache)) ∧
    (∀ (w : World) (cache : Option CacheEntry) (now : Int),
      (GETpools w cache now).1.status = 200) ∧
    (∀ (w : World) (cache : Option RouteCacheEntry) (now : Int),
      (GETpoolsRoute w cache now).1.status = 200) := by
  refine ⟨fun w threshold h => fetchGo_none threshold w.clients 0 h,
    fun w cache now hf => ?_, fun w cache now hf => ?_,
    GETpools_status, GETpoolsRoute_status⟩
  · simp [GETpoolsScan, hf]
  · simp [GETpoolsRouteScan, hf]

/-- Witness for C4: the all-failing world `wEmpty` degrades to the empty
200 responses in both variants. -/
theorem empty_scan_degrades_to_success_witness :
    fetchLogsWithFallback wEmpty.clients 25 = none ∧
    GETpoolsScan wEmpty none 777 =
      ({ status := 200, pools := [], lastUpdated := 777,
         cached := some false }, none) ∧
    GETpoolsRouteScan wEmpty none 777 =
      ({ status := 200, pools := [], lastUpdated := 777,
         cached := none }, none) := by
  have hall : ∀ threshold : Nat, ∀ c ∈ wEmpty.clients, ∀ cur : Int,
      c.blockNumber = some cur → (scanClient c cur threshold).1 = [] := by
    intro threshold c hc cur hbn
    simp only [wEmpty, List.mem_cons, List.mem_singleton] at hc
    rcases hc with rfl | rfl | h
    · exact absurd hbn (by simp [clientErr])
    · exact scan_clientZero cur threshold
    · exact absurd h (List.not_mem_nil c)
  exact ⟨empty_scan_degrades_to_success.1 wEmpty 25 (hall 25),
    empty_scan_degrades_to_success.2.1 wEmpty none 777
      (empty_scan_degrades_to_success.1 wEmpty 25 (hall 25)),
    empty_scan_degrades_to_success.2.2.1 wEmpty none 777
      (empty_scan_degrades_to_success.1 wEmpty 20 (hall 20))⟩

/-- Claim C5 counterexample: in the route variant, a request arriving
exactly 60000 ms after the cache entry's creation correctly expires the
entry and runs a fresh scan, but when that rescan finds zero events the
answer omits the `cached` key entirely (`cached = none`), so the request
does not answer with `cached: false` as the claim states. -/
theorem route_stale_entry_rescan_omits_cached :
    (GETpoolsRoute wEmpty (some { data := [], timestamp := 0 }) 60000).1 =
      { status := 200, pools := [], lastUpdated := 60000, cached := none } ∧
    (GETpoolsRoute wEmpty (some { data := [], timestamp := 0 })
        60000).1.cached ≠ some false ∧
    CACHE_TTL ≤ 60000 - (0 : Int) := by
  decide

/-- Claim C5 amended: in both handlers a cache entry whose age is at least
60 seconds is never served — such a request runs a fresh scan — and every
request arriving strictly less than 60 seconds after an entry was stored
returns that entry's pool data unchanged, tagged `cached: true`, without
touching the providers; a fresh nonempty scan is tagged `cached: false`
and stores exactly the served data stamped with the request time in both
variants, and the part_000 variant tags every fresh scan `cached: false`,
while the route variant omits the `cached` key when the fresh scan comes
out empty (per the counterexample). -/
theorem cache_ttl_semantics :
    (∀ (w : World) (entry : CacheEntry) (now : Int),
      CACHE_TTL ≤ now - entry.timestamp →
      GETpools w (some entry) now = GETpoolsScan w (some entry) now) ∧
    (∀ (w : World) (cache : Option CacheEntry) (now : Int),
      (GETpoolsScan w cache now).1.cached = some false) ∧
    (∀ (w : World) (entry : CacheEntry) (now : Int),
      now - entry.timestamp < CACHE_TTL →
      GETpools w (some entry) now =
        ({ status := 200, pools := entry.data,
           lastUpdated := entry.timestamp, cached := some true },
         some entry)) ∧
    (∀ (w : World) (cache : Option CacheEntry) (now : Int)
        (logs : List RawLog) (c : Client) (idx : Nat),
      fetchLogsWithFallback w.clients 25 = some (logs, c, idx) → logs ≠ [] →
      GETpoolsScan w cache now =
        ({ status := 200, pools := assemblePools c w.ethos logs (now / 1000),
           lastUpdated := now, cached := some false },
         some { data := assemblePools c w.ethos logs (now / 1000),
                timestamp := now })) ∧
    (∀ (w : World) (entry : RouteCacheEntry) (now : Int),
      CACHE_TTL ≤ now - entry.timestamp →
      GETpoolsRoute w (some entry) now =
        GETpoolsRouteScan w (some entry) now) ∧
    (∀ (w : World) (entry : RouteCacheEntry) (now : Int),
      now - entry.timestamp < CACHE_TTL →
      GETpoolsRoute w (some entry) now =
        ({ status := 200, pools := entry.data,
           lastUpdated := entry.timestamp, cached := some true },
         some entry)) ∧
    (∀ (w : World) (cache : Option RouteCacheEntry) (now : Int)
        (logs : List RawLog) (c : Client) (idx : Nat),
      fetchLogsWithFallback w.clients 20 = some (logs, c, idx) → logs ≠ [] →
      GETpoolsRouteScan w cache now =
        ({ status := 200,
           pools := ((sortLogsDesc logs).take 15).filterMap
             (enrichLogSimple c w.ethos),
           lastUpdated := now, cached := some false },
         some { data := ((sortLogsDesc logs).take 15).filterMap
                  (enrichLogSimple c w.ethos),
                timestamp := now })) := by
  refine ⟨fun w entry now h => ?_,
    fun w cache now => (GETpoolsScan_shape w cache now).1,
    fun w entry now h => ?_, GETpoolsScan_of_fetch,
    fun w entry now h => ?_, fun w entry now h => ?_,
    GETpoolsRouteScan_of_fetch⟩
  · simp [GETpools, not_lt.mpr h]
  · simp [GETpools, h]
  · simp [GETpoolsRoute, not_lt.mpr h]
  · simp [GETpoolsRoute, h]

/-- Witness for C5: a 59.999-second-old entry is served unchanged with
`cached: true` and a 60-second-old entry falls through to the scan path,
in both variants; the successful scans of `wMain` store their pool data
stamped `now` in both variants. -/
theorem cache_ttl_semantics_witness :
    GETpools wMain (some { data := [poolOfDEF], timestamp := 0 }) 59999 =
      ({ status := 200, pools := [poolOfDEF], lastUpdated := 0,
         cached := some true },
       some { data := [poolOfDEF], timestamp := 0 }) ∧
    GETpools wMain (some { data := [poolOfDEF], timestamp := 0 }) 60000 =
      GETpoolsScan wMain (some { data := [poolOfDEF], timestamp := 0 })
        60000 ∧
    GETpoolsScan wMain none 1000000 =
      ({ status := 200,
         pools := assemblePools clientMain wMain.ethos [logA, logB, logC]
           1000,
         lastUpdated := 1000000, cached := some false },
       some { data := assemblePools clientMain wMain.ethos
                [logA, logB, logC] 1000,
              timestamp := 1000000 }) ∧
    GETpoolsRoute wMain (some { data := [], timestamp := 0 }) 59999 =
      ({ status := 200, pools := [], lastUpdated := 0,
         cached := some true },
       some { data := [], timestamp := 0 }) ∧
    GETpoolsRoute wMain (some { data := [], timestamp := 0 }) 60000 =
      GETpoolsRouteScan wMain (some { data := [], timestamp := 0 })
        60000 ∧
    GETpoolsRouteScan wMain none 1000000 =
      ({ status := 200,
         pools := ((sortLogsDesc [logA, logB, logC]).take 15).filterMap
           (enrichLogSimple clientMain wMain.ethos),
         lastUpdated := 1000000, cached := some false },
       some { data := ((sortLogsDesc [logA, logB, logC]).take 15).filterMap
                (enrichLogSimple clientMain wMain.ethos),
              timestamp := 1000000 }) :=
  ⟨cache_ttl_semantics.2.2.1 wMain { data := [poolOfDEF], timestamp := 0 }
      59999 (by decide),
   cache_ttl_semantics.1 wMain { data := [poolOfDEF], timestamp := 0 }
      60000 (by decide),
   cache_ttl_semantics.2.2.2.1 wMain none 1000000 [logA, logB, logC]
      clientMain 1 fetch_wMain (by decide),
   cache_ttl_semantics.2.2.2.2.2.1 wMain { data := [], timestamp := 0 }
      59999 (by decide),
   cache_ttl_semantics.2.2.2.2.1 wMain { data := [], timestamp := 0 }
      60000 (by decide),
   cache_ttl_semantics.2.2.2.2.2.2 wMain none 1000000 [logA, logB, logC]
      clientMain 1 fetch_wMain20 (by decide)⟩

/-- Claim C2: The first-deployment flag of every emitted record is true exactly
when its resolved creator occurs exactly once, case-insensitively, among
the resolved creators of the full raw event set of the scan (the events
carrying a transaction hash), not just the truncated top 15. -/
theorem first_deployment_flag_iff (c : Client)
    (ethos : String → FetchOutcome) (logs : List RawLog) (nowSec : Int) :
    ∀ p ∈ assemblePools c ethos logs nowSec,
      (p.isFirstPoolByCreator = true ↔
        creatorOccurrences c logs p.creator = 1) := by
  intro p hp
  obtain ⟨log, _, ts, _, _, _, _, _, hflag⟩ := assemblePools_record hp
  rw [hflag]
  have hcount : mapGetD (buildCreatorPoolCount c (sortLogsDesc logs) [])
      (toLowerCase p.creator) = creatorOccurrences c logs p.creator := by
    rw [buildCreatorPoolCount_getD c (sortLogsDesc logs) []
      (toLowerCase p.creator)]
    simp [mapGetD, creatorOccurrences,
      count_creators_sorted c logs (toLowerCase p.creator)]
  rw [hcount]
  exact beq_iff_eq

/-- Witness for C2: in `wMain` the two case-differing occurrences of one
creator are flagged false and the unique creator is flagged true, and the
iff holds at the emitted record of the unique creator. -/
theorem first_deployment_flag_iff_witness :
    ((GETpools wMain none 1000000).1.pools.map
        (fun p => (p.creator, p.isFirstPoolByCreator))) =
      [("0xabc", false), ("0xAbC", false), ("0xDEF", true)] ∧
    poolOfDEF ∈ assemblePools clientMain mainEthos [logA, logB, logC] 1000 ∧
    (poolOfDEF.isFirstPoolByCreator = true ↔
      creatorOccurrences clientMain [logA, logB, logC] poolOfDEF.creator =
        1) ∧
    creatorOccurrences clientMain [logA, logB, logC] "0xDEF" = 1 ∧
    creatorOccurrences clientMain [logA, logB, logC] "0xAbC" = 2 :=
  ⟨by decide, by decide,
   first_deployment_flag_iff clientMain mainEthos [logA, logB, logC] 1000
     poolOfDEF (by decide),
   by decide, by decide⟩

/-- Claim C9: The assembled output is the enrichment of the top 15 records of
the stable descending sort by block number: the emitted block numbers are
descending, at most 15 records are emitted, ties keep discovery order,
and the example heights [100, 250, 75] come out as [250, 100, 75], both
for the bare sort and through the full handler. -/
theorem output_sorted_desc_top15 (c : Client)
    (ethos : String → FetchOutcome) (logs : List RawLog) (nowSec : Int)
    (v : Int) :
    (assemblePools c ethos logs nowSec =
      ((sortLogsDesc logs).take 15).filterMap
        (enrichLog c ethos (buildCreatorPoolCount c (sortLogsDesc logs) [])
          nowSec)) ∧
    ((assemblePools c ethos logs nowSec).length ≤ 15) ∧
    List.Sorted (fun a b => b ≤ a)
      ((assemblePools c ethos logs nowSec).map PoolData.blockNumber) ∧
    List.Sorted logGE (sortLogsDesc logs) ∧
    ((sortLogsDesc logs).filter (fun l => l.blockNumber == v) =
      logs.filter (fun l => l.blockNumber == v)) ∧
    ((sortLogsDesc [logA, logB, logC]).map RawLog.blockNumber =
      [250, 100, 75]) ∧
    (((GETpools wMain none 1000000).1.pools.map PoolData.blockNumber) =
      [250, 100, 75]) := by
  refine ⟨rfl, ?_, assemblePools_bn_sorted c ethos logs nowSec,
    List.sorted_insertionSort logGE logs, sortLogsDesc_filter logs v,
    by decide, by decide⟩
  calc (assemblePools c ethos logs nowSec).length
      ≤ ((sortLogsDesc logs).take 15).length :=
        List.length_filterMap_le _ _
    _ ≤ 15 := List.length_take_le 15 _

/-- Claim C1 counterexample: the route variant collapses a reputation-service
timeout/network failure onto the same emitted representation as a 2xx
response with a null score — the whole responses coincide, and the
variant's `getEthosScore` returns the same `null` for both outcomes. -/
theorem route_conflates_failure_with_null_score :
    GETpoolsRoute wTimeout none 0 = GETpoolsRoute wNullScore none 0 ∧
    (GETpoolsRoute wTimeout none 0).1.pools.length = 3 ∧
    getEthosScoreSimple (.failure "This operation was aborted") =
      getEthosScoreSimple (.response 200 none) := by
  decide

/-- Claim C1 amended: in the part_000 variant the three reputation outcomes are
distinguished and preserved in the emitted record — 2xx with a numeric
score yields that score and no error; 2xx with a null score yields a null
score and no error; an abort at the 5-second timer, a network error or a
non-2xx status yields a null score with a populated `ethos: …` error, and
an error-free result occurs exactly on the 2xx path; every emitted record
carries exactly the outcome of its creator's lookup.  (The route variant
collapses all three outcomes to a nullable score with no error field and
no timeout, per the counterexample.) -/
theorem ethos_outcomes_distinguished :
    (∀ (status : Nat) (sc : Option Int), isOkStatus status = true →
        getEthosScore (.response status sc) =
          { score := sc, error := none }) ∧
    (∀ msg, getEthosScore (.failure msg) =
        { score := none, error := some ("ethos: " ++ msg) }) ∧
    (∀ (status : Nat) (sc : Option Int), isOkStatus status = false →
        getEthosScore (.response status sc) =
          { score := none, error := some ("ethos: " ++ toString status) }) ∧
    (∀ outcome, (getEthosScore outcome).error = none ↔
        ∃ status sc, outcome = .response status sc ∧
          isOkStatus status = true) ∧
    (∀ (c : Client) (ethos : String → FetchOutcome) (logs : List RawLog)
        (nowSec : Int), ∀ p ∈ assemblePools c ethos logs nowSec,
      p.creatorScore = (getEthosScore (ethos p.creator)).score ∧
      p.scoreError = (getEthosScore (ethos p.creator)).error) := by
  refine ⟨fun status sc h => by simp [getEthosScore, h],
    fun msg => rfl,
    fun status sc h => by simp [getEthosScore, h],
    fun outcome => ?_,
    fun c ethos logs nowSec p hp => ?_⟩
  · cases outcome with
    | failure msg => simp [getEthosScore]
    | response status sc =>
      by_cases h : isOkStatus status = true
      · simp only [getEthosScore, h, if_true]
        exact ⟨fun _ => ⟨status, sc, rfl, h⟩, fun _ => trivial⟩
      · simp only [getEthosScore, h, if_false]
        constructor
        · intro hcontra
          exact absurd hcontra (by simp)
        · rintro ⟨s', sc', heq, hok⟩
          obtain ⟨rfl, rfl⟩ : s' = status ∧ sc' = sc := by
            injection heq with h1 h2
            exact ⟨h1.symm, h2.symm⟩
          exact absurd hok h
  · obtain ⟨log, _, ts, _, _, hsc, herr, _, _⟩ := assemblePools_record hp
    exact ⟨hsc, herr⟩

/-- Witness for C1's amended theorem at the three concrete outcomes and at
an emitted record of the main world. -/
theorem ethos_outcomes_distinguished_witness :
    getEthosScore (.response 200 (some 1500)) =
      { score := some 1500, error := none } ∧
    getEthosScore (.failure "This operation was aborted") =
      { score := none,
        error := some ("ethos: " ++ "This operation was aborted") } ∧
    getEthosScore (.response 503 none) =
      { score := none, error := some ("ethos: " ++ toString 503) } ∧
    ((getEthosScore (.response 404 none)).error = none ↔
      ∃ status sc, FetchOutcome.response 404 none = .response status sc ∧
        isOkStatus status = true) ∧
    (poolOfDEF.creatorScore =
        (getEthosScore (mainEthos poolOfDEF.creator)).score ∧
      poolOfDEF.scoreError =
        (getEthosScore (mainEthos poolOfDEF.creator)).error) :=
  ⟨ethos_outcomes_distinguished.1 200 (some 1500) (by decide),
   ethos_outcomes_distinguished.2.1 "This operation was aborted",
   ethos_outcomes_distinguished.2.2.1 503 none (by decide),
   ethos_outcomes_distinguished.2.2.2.1 (.response 404 none),
   ethos_outcomes_distinguished.2.2.2.2 clientMain mainEthos
     [logA, logB, logC] 1000 poolOfDEF (by decide)⟩

/-- Claim C8 counterexample: both scanned events are selected for enrichment,
but the one whose block fetch throws is removed from the output — only
the other event's record is returned. -/
theorem block_timestamp_failure_drops_event :
    (fetchLogsWithFallback wDrop.clients 25).map (fun r => r.1.length) =
      some 2 ∧
    ((GETpools wDrop none 0).1.pools.map (fun p => p.pool)) = ["q2"] ∧
    clientDrop.blockTimestamp 200 = none := by
  decide

/-- Claim C8 amended: for every event selected for enrichment, a failure of
sender resolution, of either symbol read, or of the reputation lookup
neither aborts the batch nor removes the event — each degrades to its
documented fallback (zero address, truncated address, null score with a
populated error) and the record is still emitted; a block-timestamp fetch
failure, however, drops that one event while the rest of the batch is
still emitted. -/
theorem enrichment_degrades_per_lookup :
    (∀ (c : Client) (ethos : String → FetchOutcome)
        (counts : List (String × Nat)) (nowSec : Int) (log : RawLog)
        (ts : Int),
      c.blockTimestamp log.blockNumber = some ts →
      ∃ pd, enrichLog c ethos counts nowSec log = some pd ∧
        pd.pool = log.pool ∧ pd.blockNumber = log.blockNumber ∧
        pd.timestamp = ts ∧
        (c.symbolOf log.token0 = none →
          pd.token0Symbol = log.token0.take 6 ++ "...") ∧
        (c.symbolOf log.token1 = none →
          pd.token1Symbol = log.token1.take 6 ++ "...") ∧
        (∀ h, log.transactionHash = some h → c.receiptFrom h = none →
          pd.creator = zeroAddress) ∧
        (log.transactionHash = none → pd.creator = zeroAddress) ∧
        (∀ msg, ethos (resolveCreator c log) = .failure msg →
          pd.creatorScore = none ∧ pd.scoreError ≠ none)) ∧
    (∀ (c : Client) (ethos : String → FetchOutcome) (logs : List RawLog)
        (nowSec : Int) (log : RawLog) (ts : Int),
      log ∈ (sortLogsDesc logs).take 15 →
      c.blockTimestamp log.blockNumber = some ts →
      ∃ pd ∈ assemblePools c ethos logs nowSec,
        pd.pool = log.pool ∧ pd.blockNumber = log.blockNumber) := by
  constructor
  · intro c ethos counts nowSec log ts h
    refine ⟨_, enrichLog_eq_some c ethos counts nowSec log ts h, rfl, rfl,
      rfl, ?_, ?_, ?_, ?_, ?_⟩
    · intro hsym
      simp [getTokenSymbol, hsym]
    · intro hsym
      simp [getTokenSymbol, hsym]
    · intro h htx hrec
      simp [resolveCreator, htx, getTransactionSender, hrec]
    · intro htx
      simp [resolveCreator, htx]
    · intro msg hmsg
      simp [hmsg, getEthosScore]
  · intro c ethos logs nowSec log ts hlog h
    refine ⟨_, List.mem_filterMap.mpr
      ⟨log, hlog, enrichLog_eq_some c ethos _ nowSec log ts h⟩, rfl, rfl⟩

/-- Witness for C8's amended theorem: the record of `logB` survives with
its fallbacks, and in the dropping world the other event still reaches
the output. -/
theorem enrichment_degrades_per_lookup_witness :
    (∃ pd, enrichLog clientMain mainEthos [] 1000 logB = some pd ∧
      pd.pool = logB.pool ∧ pd.blockNumber = logB.blockNumber ∧
      pd.timestamp = 1700000250 ∧
      (clientMain.symbolOf logB.token0 = none →
        pd.token0Symbol = logB.token0.take 6 ++ "...") ∧
      (clientMain.symbolOf logB.token1 = none →
        pd.token1Symbol = logB.token1.take 6 ++ "...") ∧
      (∀ h, logB.transactionHash = some h →
        clientMain.receiptFrom h = none → pd.creator = zeroAddress) ∧
      (logB.transactionHash = none → pd.creator = zeroAddress) ∧
      (∀ msg, mainEthos (resolveCreator clientMain logB) = .failure msg →
        pd.creatorScore = none ∧ pd.scoreError ≠ none)) ∧
    (∃ pd ∈ assemblePools clientDrop
        (fun _ => FetchOutcome.response 200 (some 7))
        [mkLog 200 "u1" "q1", mkLog 90 "u2" "q2"] 0,
      pd.pool = (mkLog 90 "u2" "q2").pool ∧
      pd.blockNumber = (mkLog 90 "u2" "q2").blockNumber) :=
  ⟨enrichment_degrades_per_lookup.1 clientMain mainEthos [] 1000 logB
      1700000250 (by decide),
   enrichment_degrades_per_lookup.2 clientDrop
      (fun _ => FetchOutcome.response 200 (some 7))
      [mkLog 200 "u1" "q1", mkLog 90 "u2" "q2"] 0 (mkLog 90 "u2" "q2")
      1234 (by decide) (by decide)⟩

end Redflag
